import Mathlib

/-!
# Verification of the cord19 indexing-and-ranking engine

A shallow embedding of `src/cord/cord19.py`: the tag classifier
(`tag_covid`, `tag_virus`, `tag_coronavirus`, `tag_sars`, `apply_tags`),
the BM25 index construction guard (`_get_bm25Okapi`), the query engine
(`ResearchPapers.search`, `ResearchPapers._search_papers`,
`SearchResults.__init__`), and the copy-on-filter corpus view
(`ResearchPapers._make_copy` and the filter operations), together with
theorems settling the specification's claims about them.

Modelling conventions:
* a pandas DataFrame of paper metadata is a `List Row`;
* publication dates are integers in `YYYYMMDD` encoding (order-isomorphic
  to real dates); a missing date (`NaT`) is `none`;
* BM25 scores are rationals; `numpy.round(x, 1)` is `npRound1`
  (round half to even, as numpy does);
* `numpy.argsort` (ascending) is modelled as the stable ascending argsort:
  `insertionSort` of the index range by score with index order breaking
  ties, which is exactly what a stable sort produces.
-/

/-- A row of the cleaned metadata DataFrame.  After `clean_metadata` the
`abstract` column is never null (`fill_nulls` replaces `NaN` by `''`),
so it is a plain `String`; `title` and `published` stay nullable. -/
structure Row where
  sha : Option String
  title : Option String
  abstract : String
  published : Option Int
  covid_related : Bool
  virus : Bool
  coronavirus : Bool
  sars : Bool
  index_tokens : List String
  deriving DecidableEq, Inhabited

/-! ## Regex matching as used by the tag classifier

Every pattern the classifier feeds to `pandas.Series.str.match` has the
shape `.*(t1|...|tn)` for literal alternatives `ti` (after expanding the
`-?`/`n?` options of `sars-?n?cov-?2` into its eight literal instances).
`re.match('.*' + t, s)` succeeds exactly when `t` occurs as a substring
of the first line of `s` (Python's `.` does not match a newline), so the
matcher is: some alternative is an infix of the lower-cased first line. -/

/-- The characters of `s` before the first newline, lower-cased
(`case=False` matching against a lower-case pattern). -/
def firstLineLower (s : String) : List Char :=
  (s.toList.takeWhile (fun c => c ≠ '\n')).map Char.toLower

/-- Is `t` a contiguous substring of `s`? -/
def containsSub (t : List Char) : List Char → Bool
  | [] => t.isEmpty
  | c :: rest => t.isPrefixOf (c :: rest) || containsSub t rest

/-- `pandas.Series.str.match('.*(t1|...|tn)', case=False)` for literal
alternatives: does any alternative occur in the first line of `s`? -/
def reMatchDotStar (alts : List String) (s : String) : Bool :=
  alts.any (fun t => containsSub t.toList (firstLineLower s))

/-- `COVID_TERMS` from the source, with the regex `sars-?n?cov-?2`
expanded into its eight literal instances. -/
def COVID_TERMS : List String :=
  ["covid",
   "sarscov2", "sars-cov2", "sarsncov2", "sars-ncov2",
   "sarscov-2", "sars-cov-2", "sarsncov-2", "sars-ncov-2",
   "2019-ncov", "novel coronavirus", "sars coronavirus 2"]

/-- `abstract.str.match(COVID_SEARCH, case=False)` where
`COVID_SEARCH = f".*({'|'.join(COVID_TERMS)})"`. -/
def matchCovidSearch (s : String) : Bool := reMatchDotStar COVID_TERMS s

/-- `abstract.str.match('.*(wuhan|hubei)', case=False)`. -/
def matchWuhanHubei (s : String) : Bool := reMatchDotStar ["wuhan", "hubei"] s

/-- `abstract.str.match(".*(virus|viruses|viral)", case=False)`. -/
def matchVirus (s : String) : Bool := reMatchDotStar ["virus", "viruses", "viral"] s

/-- `abstract.str.match(".*corona", case=False)`. -/
def matchCorona (s : String) : Bool := reMatchDotStar ["corona"] s

/-- `abstract.str.match(".*sars", case=False)`. -/
def matchSars (s : String) : Bool := reMatchDotStar ["sars"] s

/-- Modelled from the spec: `SARS_COV_2_DATE`, the fixed epidemiological
reference date, lives in `cord/core.py`, which is not part of the given
sources.  The spec only calls it "a fixed epidemiological reference
date"; we fix the 2019-11-30 outbreak date in `YYYYMMDD` encoding.  No
claim depends on its value, only on comparisons against it. -/
def SARS_COV_2_DATE : Int := 20191130

/-- `(data.published > SARS_COV_2_DATE) | (data.published.isnull())` for
one row.  In pandas a `NaT` date compares `False` against any date, and
`isnull()` then makes the disjunction true. -/
def sinceCovid (r : Row) : Bool :=
  match r.published with
  | some p => decide (SARS_COV_2_DATE < p)
  | none => true

/-- One row of `tag_covid` (the source operates on whole columns; each
column operation is row-wise, so the batch pass is a `List.map`). -/
def tagCovidRow (r : Row) : Row :=
  let since_covid := sinceCovid r
  let covid_term_match := since_covid && matchCovidSearch r.abstract
  let wuhan_outbreak := since_covid && matchWuhanHubei r.abstract
  let covid_match := covid_term_match || wuhan_outbreak
  { r with covid_related := covid_match }

/-- `tag_covid`: tag all the records that match covid. -/
def tag_covid (data : List Row) : List Row := data.map tagCovidRow

/-- One row of `tag_virus`. -/
def tagVirusRow (r : Row) : Row :=
  { r with virus := matchVirus r.abstract }

/-- `tag_virus`. -/
def tag_virus (data : List Row) : List Row := data.map tagVirusRow

/-- One row of `tag_coronavirus`. -/
def tagCoronavirusRow (r : Row) : Row :=
  { r with coronavirus := matchCorona r.abstract }

/-- `tag_coronavirus`. -/
def tag_coronavirus (data : List Row) : List Row := data.map tagCoronavirusRow

/-- One row of `tag_sars`: `sars_not_covid = ~(data.covid_related) & sars_cond`. -/
def tagSarsRow (r : Row) : Row :=
  let sars_cond := matchSars r.abstract
  let sars_not_covid := !r.covid_related && sars_cond
  { r with sars := sars_not_covid }

/-- `tag_sars`. -/
def tag_sars (data : List Row) : List Row := data.map tagSarsRow

/-- `apply_tags`: the ordered tagging pipeline
`tag_covid → tag_virus → tag_coronavirus → tag_sars`. -/
def apply_tags (data : List Row) : List Row :=
  tag_sars (tag_coronavirus (tag_virus (tag_covid data)))

/-! ## The BM25 index construction guard and the scoring model -/

/-- The BM25 index: the (possibly sentinel-substituted) token corpus it
was built over. -/
structure Bm25Index where
  corpus : List (List String)
  deriving DecidableEq, Inhabited

/-- The sentinel substitution inside `_get_bm25Okapi`:
`if not has_tokens: index_tokens.loc[0] = ['no', 'tokens']`.
`.loc` is *label*-based and `ResearchPapers._make_copy` never resets
the row labels, so the token series is a list of (row label, tokens)
pairs: when some row carries the label 0 the assignment replaces its
tokens, otherwise it *enlarges* the series with a new row labelled 0 —
and the enlarged series then has one more document than the metadata
frame has rows. -/
def substituteTokens (index_tokens : List (ℕ × List String)) :
    List (ℕ × List String) :=
  let has_tokens := ((index_tokens.map Prod.snd).map List.length).sum > 0
  if has_tokens then index_tokens
  else if index_tokens.any (fun e => decide (e.1 = 0)) then
    index_tokens.map (fun e => if e.1 = 0 then (0, ["no", "tokens"]) else e)
  else index_tokens ++ [(0, ["no", "tokens"])]

/-- Modelled from the spec: the `rank_bm25.BM25Okapi` constructor is an
external library, not part of the given sources.  Per the spec (§4.3)
the underlying statistical model degenerates when the corpus has no
documents or no tokens at all; we model construction as failing
(`none`) exactly in that degenerate case. -/
def bm25Build (corpus : List (List String)) : Option Bm25Index :=
  if corpus.length = 0 ∨ (corpus.map List.length).sum = 0 then none
  else some ⟨corpus⟩

/-- `_get_bm25Okapi`: substitute the sentinel document when the corpus
has no tokens anywhere, then build the index over the series' values in
positional order (`index_tokens.tolist()`). -/
def _get_bm25Okapi (index_tokens : List (ℕ × List String)) : Option Bm25Index :=
  bm25Build ((substituteTokens index_tokens).map Prod.snd)

/-- Modelled from the spec: `BM25Okapi.get_scores` is an external
library, not part of the given sources.  The spec (§4.3) requires a
parallel array of non-negative scores monotonically reflecting term
overlap; the claims need only that a document sharing no term with the
query scores zero, so we model the score of a document as the number of
its tokens that occur in the query. -/
def bm25Scores (idx : Bm25Index) (query : List String) : List ℚ :=
  idx.corpus.map (fun doc => ((doc.countP (fun t => query.contains t) : ℕ) : ℚ))

/-! ## numpy rounding and the stable argsort -/

/-- Round half to even, as `numpy.round` does.  With `f = ⌊x⌋`, the
fractional part of `x` is below, above, or exactly one half according as
`x` is below, above, or equal to `f + 1/2 = (2f + 1)/2`. -/
def roundHalfEven (x : ℚ) : ℤ :=
  if x < Rat.divInt (2 * x.floor + 1) 2 then x.floor
  else if Rat.divInt (2 * x.floor + 1) 2 < x then x.floor + 1
  else if x.floor % 2 = 0 then x.floor else x.floor + 1

/-- `numpy.round(x, 1)`: round to one decimal place, half to even.
`Rat.divInt (x.num * 10) x.den` is `x * 10` (see `divInt_num_mul_ten`),
spelled so that the kernel can evaluate it. -/
def npRound1 (x : ℚ) : ℚ :=
  Rat.divInt (roundHalfEven (Rat.divInt (x.num * 10) x.den)) 10

/-- The comparison underlying the stable ascending argsort of `xs`:
position `i` comes before position `j` when it has the smaller score,
or an equal score and the smaller position (stability). -/
def leKey (xs : List ℚ) (i j : ℕ) : Prop :=
  xs.getD i 0 < xs.getD j 0 ∨ (xs.getD i 0 = xs.getD j 0 ∧ i ≤ j)

instance (xs : List ℚ) : DecidableRel (leKey xs) := fun i j => by
  unfold leKey; infer_instance

/-- `numpy.argsort(xs)` (ascending, stable): sort the positions
`0, ..., xs.length - 1` by score, position breaking ties. -/
def argsortAsc (xs : List ℚ) : List ℕ :=
  (List.range xs.length).insertionSort (leKey xs)

instance (xs : List ℚ) : IsTotal ℕ (leKey xs) := by
  constructor
  intro i j
  unfold leKey
  rcases lt_trichotomy (xs.getD i 0) (xs.getD j 0) with hlt | heq | hgt
  · exact Or.inl (Or.inl hlt)
  · rcases Nat.le_total i j with hij | hji
    · exact Or.inl (Or.inr ⟨heq, hij⟩)
    · exact Or.inr (Or.inr ⟨heq.symm, hji⟩)
  · exact Or.inr (Or.inl hgt)

instance (xs : List ℚ) : IsTrans ℕ (leKey xs) := by
  constructor
  intro i j k hij hjk
  unfold leKey at *
  rcases hij with hij | ⟨hije, hijle⟩
  · rcases hjk with hjk | ⟨hjke, _⟩
    · exact Or.inl (lt_trans hij hjk)
    · exact Or.inl (hjke ▸ hij)
  · rcases hjk with hjk | ⟨hjke, hjkle⟩
    · exact Or.inl (hije ▸ hjk)
    · exact Or.inr ⟨hije.trans hjke, le_trans hijle hjkle⟩

/-! ## The query engine -/

/-- `_MINIMUM_SEARCH_SCORE = 2`. -/
def _MINIMUM_SEARCH_SCORE : ℚ := 2

/-- One row of a search-result DataFrame: its original corpus position
(dropped from the real frame by `reset_index(drop=True)` but kept here
as provenance), the metadata row, and the attached rounded `Score`. -/
structure SRow where
  idx : ℕ
  row : Row
  score : ℚ
  deriving DecidableEq, Inhabited

/-- `results = self.metadata.iloc[ind].copy();
results['Score'] = doc_scores[ind].round(1)`.  Positional indexing
raises when any index is out of bounds, hence the `Option`. -/
def iloc (rows : List Row) (doc_scores : List ℚ) (ind : List ℕ) : Option (List SRow) :=
  if ind.all (fun i => i < rows.length) then
    some (ind.map (fun i => ⟨i, rows.getD i default, npRound1 (doc_scores.getD i 0)⟩))
  else none

/-- `if covid_related: results = results[results.covid_related]`. -/
def filterCovid (covid_related : Bool) (results : List SRow) : List SRow :=
  if covid_related then results.filter (fun x => x.row.covid_related) else results

/-- `if start_date: results = results[results.published >= start_date]`.
A `NaT` date compares `False`, so unknown dates are dropped. -/
def filterStartDate (start_date : Option Int) (results : List SRow) : List SRow :=
  match start_date with
  | none => results
  | some d => results.filter (fun x =>
      match x.row.published with
      | some p => decide (d ≤ p)
      | none => false)

/-- `if end_date: results = results[results.published < end_date]`. -/
def filterEndDate (end_date : Option Int) (results : List SRow) : List SRow :=
  match end_date with
  | none => results
  | some d => results.filter (fun x =>
      match x.row.published with
      | some p => decide (p < d)
      | none => false)

/-- `results = results[results.Score > _MINIMUM_SEARCH_SCORE]`. -/
def filterScore (results : List SRow) : List SRow :=
  results.filter (fun x => decide (_MINIMUM_SEARCH_SCORE < x.score))

/-- `SearchResults.__init__`: `self.results = data.dropna(subset=['title'])`
(the url/summary/authors columns it adds are presentation only). -/
def searchResultsInit (results : List SRow) : List SRow :=
  results.filter (fun x => x.row.title.isSome)

/-- `ResearchPapers.search`, given the score array the BM25 index
returned for the preprocessed query (`doc_scores = bm25.get_scores(...)`).
`num_results or self.num_results` falls back to the default 10 when
`num_results` is `None` — or `0`, which is falsy in Python. -/
def search (rows : List Row) (doc_scores : List ℚ) (num_results : Option ℕ)
    (covid_related : Bool) (start_date end_date : Option Int) : Option (List SRow) :=
  let n_results : ℕ :=
    match num_results with
    | none => 10
    | some 0 => 10
    | some k => k
  let ind := (argsortAsc doc_scores).reverse
  (iloc rows doc_scores ind).map (fun results =>
    searchResultsInit
      ((filterScore
        (filterEndDate end_date
          (filterStartDate start_date
            (filterCovid covid_related results)))).take n_results))

/-- The `n_results` value `num_results or self.num_results` computes
(spelled out for the lemmas; it is the inline `match` of `search`). -/
def nResultsOf (num_results : Option ℕ) : ℕ :=
  match num_results with
  | none => 10
  | some 0 => 10
  | some k => k

/-- `ResearchPapers._search_papers`: `if len(SearchTerms) < 5: return`,
otherwise delegate to `search` (which never receives the covid flag
from this caller, so it stays at its default `False`). -/
def _search_papers (rows : List Row) (doc_scores : List ℚ) (SearchTerms : String)
    (num_results : Option ℕ) (start_date end_date : Option Int) : Option (List SRow) :=
  if SearchTerms.length < 5 then none
  else search rows doc_scores num_results false start_date end_date

/-! ## The copy-on-filter corpus view

pandas aliasing made explicit: a DataFrame is a handle into a store of
row arrays (`Heap`), holding the address of its backing array and the
positions of its selected rows.  Boolean/positional indexing
(`self.metadata[cond]`, `.head`, `.tail`, `.sample`) returns a handle
that *shares* the backing array; `DataFrame.copy()` — which
`ResearchPapers._make_copy` always applies — materialises the selected
rows into a fresh backing array.  Mutation writes through the handle
into the backing array, which is exactly the aliasing hazard the copy
prevents. -/

/-- A pandas DataFrame handle: backing-store address plus selected row
positions. -/
structure PdFrame where
  addr : ℕ
  sel : List ℕ
  deriving DecidableEq, Inhabited

/-- The store of backing row arrays; an address is an index into it. -/
structure Heap where
  store : List (List Row)
  deriving DecidableEq, Inhabited

/-- The rows a DataFrame handle denotes. -/
def frameRows (h : Heap) (f : PdFrame) : List Row :=
  f.sel.map (fun j => (h.store.getD f.addr []).getD j default)

/-- Mutate row `i` of a DataFrame in place (e.g. assigning to a field of
a document): writes through the handle into the backing array. -/
def writeRow (h : Heap) (f : PdFrame) (i : ℕ) (r : Row) : Heap :=
  ⟨h.store.set f.addr ((h.store.getD f.addr []).set (f.sel.getD i 0) r)⟩

/-- Boolean/positional indexing: a sub-selection that shares the backing
array with its parent. -/
def selectFrame (f : PdFrame) (keep : List ℕ) : PdFrame :=
  ⟨f.addr, keep.map (fun i => f.sel.getD i 0)⟩

/-- `DataFrame.copy()`: materialise the selected rows into a fresh
backing array at a fresh address. -/
def copyFrame (h : Heap) (f : PdFrame) : Heap × PdFrame :=
  (⟨h.store ++ [frameRows h f]⟩, ⟨h.store.length, List.range f.sel.length⟩)

/-- `ResearchPapers._make_copy`: every filter operation funnels its
subset through `ResearchPapers(metadata=new_data.copy(), ...)`. -/
def makeCopy (h : Heap) (f : PdFrame) : Heap × PdFrame := copyFrame h f

/-- The filter operations of the corpus view.  `query` carries the row
predicate the query string compiles to; `containsStr`/`matchStr` carry a
literal pattern matched against the abstract column (`str.contains`
searches anywhere, `str.match` anchors at the start); `sample` carries
the randomly drawn positions as an explicit oracle. -/
inductive FilterOp where
  | query (p : Row → Bool)
  | after (date : Int) (include_null_dates : Bool)
  | before (date : Int) (include_null_dates : Bool)
  | containsStr (pat : String)
  | matchStr (pat : String)
  | head (n : ℕ)
  | tail (n : ℕ)
  | sample (pick : List ℕ)

/-- Which positions of `rows` a filter operation keeps, in the order the
resulting DataFrame presents them. -/
def opKeep (rows : List Row) : FilterOp → List ℕ
  | .query p => (List.range rows.length).filter (fun i => p (rows.getD i default))
  | .after d inc => (List.range rows.length).filter (fun i =>
      match (rows.getD i default).published with
      | some q => decide (d ≤ q)
      | none => inc)
  | .before d inc => (List.range rows.length).filter (fun i =>
      match (rows.getD i default).published with
      | some q => decide (q < d)
      | none => inc)
  | .containsStr pat => (List.range rows.length).filter (fun i =>
      containsSub pat.toList (rows.getD i default).abstract.toList)
  | .matchStr pat => (List.range rows.length).filter (fun i =>
      pat.toList.isPrefixOf (rows.getD i default).abstract.toList)
  | .head n => (List.range rows.length).take n
  | .tail n => (List.range rows.length).drop (rows.length - n)
  | .sample pick => pick

/-- Is the operation one of the deterministic, order-preserving filters
(everything except `sample`)? -/
def FilterOp.orderPreserving : FilterOp → Bool
  | .sample _ => false
  | _ => true

/-- Apply one filter operation: select the kept rows (sharing the
backing array) and then, as `_make_copy` does, materialise an
independent copy. -/
def applyOp (h : Heap) (f : PdFrame) (op : FilterOp) : Heap × PdFrame :=
  makeCopy h (selectFrame f (opKeep (frameRows h f) op))

/-- What the spec says each filter operation keeps — written from the
spec's words ("the matching subset of the parent's rows, in the same
relative order"; `head`/`tail` are positional slices; `sample` presents
the drawn positions in draw order) to compare with what `applyOp`
materialises. -/
def opRows (rows : List Row) : FilterOp → List Row
  | .query p => rows.filter p
  | .after d inc => rows.filter (fun r =>
      match r.published with
      | some q => decide (d ≤ q)
      | none => inc)
  | .before d inc => rows.filter (fun r =>
      match r.published with
      | some q => decide (q < d)
      | none => inc)
  | .containsStr pat => rows.filter (fun r =>
      containsSub pat.toList r.abstract.toList)
  | .matchStr pat => rows.filter (fun r =>
      pat.toList.isPrefixOf r.abstract.toList)
  | .head n => rows.take n
  | .tail n => rows.drop (rows.length - n)
  | .sample pick => pick.map (fun i => rows.getD i default)

/-! ## Concrete fixtures used by counterexamples and witnesses -/

/-- A paper about the covid outbreak, published the day after the
reference date. -/
def rowA : Row :=
  ⟨some "a1", some "Novel coronavirus outbreak", "novel coronavirus outbreak in wuhan",
    some 20191201, false, false, false, false, ["coronavirus", "wuhan"]⟩

/-- An unrelated, older paper. -/
def rowB : Row :=
  ⟨some "b2", some "Influenza vaccine trial", "influenza vaccine trial",
    some 20150101, false, false, false, false, ["influenza", "vaccin"]⟩

/-- A paper about sars with no covid-era term and no date. -/
def rowSars : Row :=
  ⟨some "c3", some "SARS structural study", "sars coronavirus structural study",
    none, false, false, false, false, ["sars", "coronavirus"]⟩

/-- A covid-term paper published exactly on the reference date. -/
def rowOnRefDate : Row :=
  ⟨some "d4", some "Covid study", "covid outbreak study",
    some SARS_COV_2_DATE, false, false, false, false, ["covid"]⟩

/-- A paper whose title is null. -/
def rowNullTitle : Row :=
  ⟨some "e5", none, "novel coronavirus genome analysis",
    some 20200101, false, false, false, false, ["coronavirus", "genom"]⟩

/-- A paper with an empty token sequence. -/
def rowEmptyTokens : Row :=
  ⟨some "f6", some "Empty", "", none, false, false, false, false, []⟩

/-- A two-row backing store for the corpus-view fixtures. -/
def heap0 : Heap := ⟨[[rowA, rowB]]⟩

/-- A DataFrame handle selecting both rows of `heap0`. -/
def frame0 : PdFrame := ⟨0, [0, 1]⟩

/-! ## Helper lemmas: rounding -/

/-- The kernel-friendly spelling of `x * 10` used inside `npRound1`. -/
theorem divInt_num_mul_ten (x : ℚ) : Rat.divInt (x.num * 10) x.den = x * 10 := by
  rw [Rat.divInt_eq_div]
  push_cast
  rw [mul_div_right_comm, Rat.num_div_den]

/-- Rounding half to even never crosses the value 20 from below. -/
theorem roundHalfEven_le_of_le_twenty {x : ℚ} (h : x ≤ 20) : roundHalfEven x ≤ 20 := by
  have hle : ((x.floor : ℤ) : ℚ) ≤ x := Int.floor_le x
  have hf20 : x.floor ≤ 20 := by
    have h2 : ((x.floor : ℤ) : ℚ) ≤ 20 := le_trans hle h
    exact_mod_cast h2
  unfold roundHalfEven
  rcases lt_or_eq_of_le hf20 with h19 | h20
  · split_ifs <;> omega
  · have hx20 : x = 20 := by
      have h1 : ((20 : ℤ) : ℚ) ≤ x := by rw [← h20]; exact hle
      have h1' : (20 : ℚ) ≤ x := by exact_mod_cast h1
      linarith
    have hmid : x < Rat.divInt (2 * x.floor + 1) 2 := by
      rw [Rat.divInt_eq_div, h20, hx20]
      push_cast
      norm_num
    rw [if_pos hmid, h20]

/-- If a raw score is at most 2 then its rounded `Score` is at most 2:
the displayed threshold never admits a raw score below the cutoff. -/
theorem npRound1_le_two {x : ℚ} (h : x ≤ 2) : npRound1 x ≤ 2 := by
  unfold npRound1
  rw [divInt_num_mul_ten]
  have h20 : x * 10 ≤ 20 := by linarith
  have hr := roundHalfEven_le_of_le_twenty h20
  rw [Rat.divInt_eq_div]
  push_cast
  rw [div_le_iff₀ (by norm_num : (0 : ℚ) < 10)]
  have hc : ((roundHalfEven (x * 10) : ℤ) : ℚ) ≤ 20 := by exact_mod_cast hr
  linarith

/-- A rounded `Score` above 2 comes from a raw score above 2. -/
theorem two_lt_of_two_lt_npRound1 {x : ℚ} (h : 2 < npRound1 x) : 2 < x := by
  by_contra hc
  push_neg at hc
  exact absurd h (not_lt.mpr (npRound1_le_two hc))

/-! ## Helper lemmas: the stable argsort -/

/-- The argsort is a permutation of the position range. -/
theorem argsortAsc_perm (xs : List ℚ) :
    (argsortAsc xs).Perm (List.range xs.length) :=
  List.perm_insertionSort _ _

/-- A position occurs in the argsort exactly when it is in range. -/
theorem mem_argsortAsc {xs : List ℚ} {i : ℕ} :
    i ∈ argsortAsc xs ↔ i < xs.length := by
  rw [(argsortAsc_perm xs).mem_iff, List.mem_range]

/-- What a successful `iloc` returns. -/
theorem iloc_eq_some {rows : List Row} {ds : List ℚ} {ind : List ℕ} {l : List SRow}
    (h : iloc rows ds ind = some l) :
    (∀ i ∈ ind, i < rows.length) ∧
      l = ind.map (fun i => ⟨i, rows.getD i default, npRound1 (ds.getD i 0)⟩) := by
  unfold iloc at h
  split at h
  · next hall =>
    refine ⟨?_, (Option.some_injective _ h).symm⟩
    intro i hi
    exact of_decide_eq_true (List.all_eq_true.mp hall i hi)
  · exact absurd h (by simp)

/-- `iloc` succeeds when every index is in bounds. -/
theorem iloc_isSome {rows : List Row} {ds : List ℚ} {ind : List ℕ}
    (h : ∀ i ∈ ind, i < rows.length) :
    iloc rows ds ind =
      some (ind.map (fun i => ⟨i, rows.getD i default, npRound1 (ds.getD i 0)⟩)) := by
  unfold iloc
  rw [if_pos]
  exact List.all_eq_true.mpr (fun i hi => decide_eq_true (h i hi))

/-- A successful `search` is the filter pipeline applied to a successful
`iloc` of the reversed argsort. -/
theorem search_eq_some {rows : List Row} {ds : List ℚ} {nr : Option ℕ} {c : Bool}
    {sd ed : Option Int} {res : List SRow}
    (h : search rows ds nr c sd ed = some res) :
    ∃ base, iloc rows ds ((argsortAsc ds).reverse) = some base ∧
      res = searchResultsInit
        ((filterScore (filterEndDate ed (filterStartDate sd
          (filterCovid c base)))).take (nResultsOf nr)) := by
  unfold search at h
  rw [Option.map_eq_some'] at h
  obtain ⟨base, hb, hres⟩ := h
  exact ⟨base, hb, by rw [← hres]; rfl⟩

/-! ## Helper lemmas: each pipeline stage yields a sublist -/

theorem filterCovid_sublist (c : Bool) (l : List SRow) :
    (filterCovid c l).Sublist l := by
  unfold filterCovid
  split
  · exact List.filter_sublist l
  · exact List.Sublist.refl l

theorem filterStartDate_sublist (sd : Option Int) (l : List SRow) :
    (filterStartDate sd l).Sublist l := by
  unfold filterStartDate
  split
  · exact List.Sublist.refl l
  · exact List.filter_sublist l

theorem filterEndDate_sublist (ed : Option Int) (l : List SRow) :
    (filterEndDate ed l).Sublist l := by
  unfold filterEndDate
  split
  · exact List.Sublist.refl l
  · exact List.filter_sublist l

theorem filterScore_sublist (l : List SRow) : (filterScore l).Sublist l :=
  List.filter_sublist l

theorem searchResultsInit_sublist (l : List SRow) :
    (searchResultsInit l).Sublist l :=
  List.filter_sublist l

/-- The part of the pipeline above the start-date filter only deletes
rows. -/
theorem pipeline_sublist_startDate (sd ed : Option Int) (n : ℕ) (l : List SRow) :
    (searchResultsInit ((filterScore (filterEndDate ed
      (filterStartDate sd l))).take n)).Sublist (filterStartDate sd l) :=
  ((searchResultsInit_sublist _).trans (List.take_sublist _ _)).trans
    ((filterScore_sublist _).trans (filterEndDate_sublist _ _))

/-- The whole pipeline only deletes rows of the scored base frame. -/
theorem pipeline_sublist_base (c : Bool) (sd ed : Option Int) (n : ℕ) (l : List SRow) :
    (searchResultsInit ((filterScore (filterEndDate ed (filterStartDate sd
      (filterCovid c l)))).take n)).Sublist l :=
  ((pipeline_sublist_startDate sd ed n _).trans (filterStartDate_sublist _ _)).trans
    (filterCovid_sublist c l)

/-- The shape of every row of a successful `iloc`: its provenance index,
the metadata row there, and the rounded score there. -/
theorem mem_iloc_shape {rows : List Row} {ds : List ℚ} {ind : List ℕ}
    {l : List SRow} {x : SRow} (h : iloc rows ds ind = some l) (hx : x ∈ l) :
    x.idx ∈ ind ∧ x.row = rows.getD x.idx default ∧
      x.score = npRound1 (ds.getD x.idx 0) := by
  obtain ⟨-, rfl⟩ := iloc_eq_some h
  obtain ⟨i, hi, rfl⟩ := List.mem_map.mp hx
  exact ⟨hi, rfl, rfl⟩

/-! ## C1: ordering of search results -/

/-- C3: every document of a search result has rounded `Score` and raw
BM25 score strictly above the fixed threshold 2, and when no document
scores above the threshold the result is empty regardless of
`result_limit`. -/
theorem search_score_above_threshold
    (rows : List Row) (doc_scores : List ℚ) (num_results : Option ℕ)
    (covid_related : Bool) (start_date end_date : Option Int) (res : List SRow)
    (h : search rows doc_scores num_results covid_related start_date end_date = some res) :
    (∀ x ∈ res, _MINIMUM_SEARCH_SCORE < x.score ∧
      _MINIMUM_SEARCH_SCORE < doc_scores.getD x.idx 0) ∧
    ((∀ s ∈ doc_scores, s ≤ _MINIMUM_SEARCH_SCORE) → res = []) := by
  obtain ⟨base, hbase, hres⟩ := search_eq_some h
  constructor
  · intro x hx
    have hxs : x ∈ filterScore (filterEndDate end_date
        (filterStartDate start_date (filterCovid covid_related base))) := by
      rw [hres] at hx
      exact ((searchResultsInit_sublist _).trans (List.take_sublist _ _)).subset hx
    have hscore : _MINIMUM_SEARCH_SCORE < x.score := by
      have h2 := (List.mem_filter.mp hxs).2
      exact of_decide_eq_true h2
    refine ⟨hscore, ?_⟩
    have hxb : x ∈ base := by
      rw [hres] at hx
      exact (pipeline_sublist_base _ _ _ _ _).subset hx
    obtain ⟨-, -, hsc⟩ := mem_iloc_shape hbase hxb
    rw [hsc] at hscore
    exact two_lt_of_two_lt_npRound1 hscore
  · intro hall
    rw [hres]
    have hempty : filterScore (filterEndDate end_date
        (filterStartDate start_date (filterCovid covid_related base))) = [] := by
      unfold filterScore
      rw [List.filter_eq_nil_iff]
      intro x hx
      have hxb : x ∈ base :=
        ((filterEndDate_sublist _ _).trans
          ((filterStartDate_sublist _ _).trans (filterCovid_sublist _ _))).subset hx
      obtain ⟨hidx, -, hsc⟩ := mem_iloc_shape hbase hxb
      have hlt : x.idx < doc_scores.length := by
        rw [List.mem_reverse] at hidx
        exact mem_argsortAsc.mp hidx
      have hmem : doc_scores.getD x.idx 0 ∈ doc_scores := by
        rw [List.getD_eq_getElem doc_scores 0 hlt]
        exact List.getElem_mem hlt
      have hle2 : doc_scores.getD x.idx 0 ≤ _MINIMUM_SEARCH_SCORE := hall _ hmem
      have hnot : ¬ (_MINIMUM_SEARCH_SCORE < x.score) := by
        rw [hsc]
        exact not_lt.mpr (npRound1_le_two hle2)
      simpa using hnot
    rw [hempty, List.take_nil]
    rfl

/-- C3 (witness): the threshold theorem applied to a concrete search. -/
theorem search_score_above_threshold_witness :
    search [rowA] [3] none false none none = some [⟨0, rowA, 3⟩] ∧
      ((∀ x ∈ ([⟨0, rowA, (3 : ℚ)⟩] : List SRow),
          _MINIMUM_SEARCH_SCORE < x.score ∧
          _MINIMUM_SEARCH_SCORE < ([3] : List ℚ).getD x.idx 0) ∧
        ((∀ s ∈ ([3] : List ℚ), s ≤ _MINIMUM_SEARCH_SCORE) →
          ([⟨0, rowA, (3 : ℚ)⟩] : List SRow) = [])) :=
  ⟨by decide,
    search_score_above_threshold [rowA] [3] none false none none
      [⟨0, rowA, 3⟩] (by decide)⟩

/-! ## C4: the result limit -/

/-- C4 (counterexample): `num_results or self.num_results` treats the
falsy limit `0` as "use the default 10", so `result_limit = 0` still
returns a document, refuting `len(search(..., result_limit=k)) <= k`
for k = 0. -/
theorem search_result_limit_zero_counterexample :
    search [rowA] [3] (some 0) false none none = some [⟨0, rowA, 3⟩] ∧
      ¬ (([⟨0, rowA, (3 : ℚ)⟩] : List SRow).length ≤ 0) := by
  decide

/-- C4 (amended): for every `k ≥ 1` a search with `result_limit = k`
returns at most `k` documents (the truncation is the `head(n_results)`
taken after the tag, date and threshold filters; `k = 0`, being falsy in
Python, falls back to the default limit 10). -/
theorem search_result_limit_bound
    (rows : List Row) (doc_scores : List ℚ) (k : ℕ)
    (covid_related : Bool) (start_date end_date : Option Int) (res : List SRow)
    (hk : 1 ≤ k)
    (h : search rows doc_scores (some k) covid_related start_date end_date = some res) :
    res.length ≤ k := by
  obtain ⟨base, hbase, hres⟩ := search_eq_some h
  have hnr : nResultsOf (some k) = k := by
    cases k with
    | zero => omega
    | succ n => rfl
  rw [hres]
  calc (searchResultsInit _).length
      ≤ (List.take (nResultsOf (some k)) (filterScore (filterEndDate end_date
          (filterStartDate start_date (filterCovid covid_related base))))).length :=
        (searchResultsInit_sublist _).length_le
    _ ≤ nResultsOf (some k) := List.length_take_le _ _
    _ = k := hnr

/-- C4 (witness): the limit bound applied to a concrete search with
`result_limit = 1` over two above-threshold documents. -/
theorem search_result_limit_bound_witness :
    1 ≤ 1 ∧ ([⟨1, rowB, (3 : ℚ)⟩] : List SRow).length ≤ 1 :=
  ⟨by decide,
    search_result_limit_bound [rowA, rowB] [3, 3] 1 false none none
      [⟨1, rowB, 3⟩] (by decide) (by decide)⟩

/-! ## C7: date-range filtering at query time -/

/-- C7: when `start_date` is given every returned document has a known
publication date `≥ start_date`; when `end_date` is given every returned
document has a known publication date `< end_date`; documents with an
unknown date are excluded whenever either bound is given. -/
theorem search_date_filters
    (rows : List Row) (doc_scores : List ℚ) (num_results : Option ℕ)
    (covid_related : Bool) (start_date end_date : Option Int) (res : List SRow)
    (h : search rows doc_scores num_results covid_related start_date end_date = some res) :
    (∀ d, start_date = some d → ∀ x ∈ res, ∃ p, x.row.published = some p ∧ d ≤ p) ∧
    (∀ d, end_date = some d → ∀ x ∈ res, ∃ p, x.row.published = some p ∧ p < d) ∧
    ((start_date.isSome ∨ end_date.isSome) →
      ∀ x ∈ res, x.row.published.isSome = true) := by
  obtain ⟨base, hbase, hres⟩ := search_eq_some h
  have hstart : ∀ d, start_date = some d →
      ∀ x ∈ res, ∃ p, x.row.published = some p ∧ d ≤ p := by
    intro d hd x hx
    have hxs : x ∈ filterStartDate start_date (filterCovid covid_related base) := by
      rw [hres] at hx
      exact (pipeline_sublist_startDate _ _ _ _).subset hx
    rw [hd] at hxs
    unfold filterStartDate at hxs
    have hp := (List.mem_filter.mp hxs).2
    cases hpub : x.row.published with
    | none => rw [hpub] at hp; exact absurd hp (by simp)
    | some p =>
      rw [hpub] at hp
      exact ⟨p, rfl, of_decide_eq_true hp⟩
  have hend : ∀ d, end_date = some d →
      ∀ x ∈ res, ∃ p, x.row.published = some p ∧ p < d := by
    intro d hd x hx
    have hxs : x ∈ filterEndDate end_date
        (filterStartDate start_date (filterCovid covid_related base)) := by
      rw [hres] at hx
      exact (((searchResultsInit_sublist _).trans (List.take_sublist _ _)).trans
        (filterScore_sublist _)).subset hx
    rw [hd] at hxs
    unfold filterEndDate at hxs
    have hp := (List.mem_filter.mp hxs).2
    cases hpub : x.row.published with
    | none => rw [hpub] at hp; exact absurd hp (by simp)
    | some p =>
      rw [hpub] at hp
      exact ⟨p, rfl, of_decide_eq_true hp⟩
  refine ⟨hstart, hend, ?_⟩
  rintro (hs | he) x hx
  · obtain ⟨d, hd⟩ := Option.isSome_iff_exists.mp hs
    obtain ⟨p, hp, -⟩ := hstart d hd x hx
    rw [hp]; rfl
  · obtain ⟨d, hd⟩ := Option.isSome_iff_exists.mp he
    obtain ⟨p, hp, -⟩ := hend d hd x hx
    rw [hp]; rfl

/-- C7 (witness): the date-filter theorem applied to a concrete search
whose corpus holds an in-range document, an out-of-range document, and
an unknown-date document. -/
theorem search_date_filters_witness :
    search [rowA, rowB, rowSars] [5, 5, 5] none false (some 20190101) none =
        some [⟨0, rowA, 5⟩] ∧
      ((∀ d, (some 20190101 : Option Int) = some d →
          ∀ x ∈ ([⟨0, rowA, (5 : ℚ)⟩] : List SRow),
            ∃ p, x.row.published = some p ∧ d ≤ p) ∧
        (∀ d, (none : Option Int) = some d →
          ∀ x ∈ ([⟨0, rowA, (5 : ℚ)⟩] : List SRow),
            ∃ p, x.row.published = some p ∧ p < d) ∧
        (((some 20190101 : Option Int).isSome ∨ (none : Option Int).isSome) →
          ∀ x ∈ ([⟨0, rowA, (5 : ℚ)⟩] : List SRow), x.row.published.isSome = true)) :=
  ⟨by decide,
    search_date_filters [rowA, rowB, rowSars] [5, 5, 5] none false
      (some 20190101) none [⟨0, rowA, 5⟩] (by decide)⟩

/-! ## C10: null titles are dropped from search results -/

/-- C10: `SearchResults.__init__` drops every row with a null title
(`dropna(subset=['title'])`), so a search result never contains a
document with a null title — and, as the concrete second part shows, a
null-titled document that passed the score, tag and date filters is
silently dropped, shrinking the result below the number of filtered
documents. -/
theorem search_results_title_not_null
    (rows : List Row) (doc_scores : List ℚ) (num_results : Option ℕ)
    (covid_related : Bool) (start_date end_date : Option Int) (res : List SRow)
    (h : search rows doc_scores num_results covid_related start_date end_date = some res) :
    (∀ x ∈ res, x.row.title.isSome = true) ∧
      search [rowNullTitle] [5] none false none none = some [] := by
  obtain ⟨base, hbase, hres⟩ := search_eq_some h
  constructor
  · intro x hx
    rw [hres] at hx
    unfold searchResultsInit at hx
    exact (List.mem_filter.mp hx).2
  · decide

/-- C10 (witness): the null-title theorem applied to a concrete
search. -/
theorem search_results_title_not_null_witness :
    search [rowA] [3] none false none none = some [⟨0, rowA, 3⟩] ∧
      ((∀ x ∈ ([⟨0, rowA, (3 : ℚ)⟩] : List SRow), x.row.title.isSome = true) ∧
        search [rowNullTitle] [5] none false none none = some []) :=
  ⟨by decide,
    search_results_title_not_null [rowA] [3] none false none none
      [⟨0, rowA, 3⟩] (by decide)⟩

/-! ## C2: sars excludes covid_related -/

/-- C2: after `apply_tags`, `sars = true` implies
`covid_related = false` — `tag_sars` only sets `sars` where
`~covid_related` holds, and no later pass changes either flag. -/
theorem apply_tags_sars_excludes_covid
    (data : List Row) (r : Row) (hr : r ∈ apply_tags data) (hs : r.sars = true) :
    r.covid_related = false := by
  unfold apply_tags tag_sars at hr
  obtain ⟨r3, -, rfl⟩ := List.mem_map.mp hr
  have hs2 : (!r3.covid_related && matchSars r3.abstract) = true := hs
  rw [Bool.and_eq_true, Bool.not_eq_true'] at hs2
  exact hs2.1

/-- C2 (witness): the exclusion theorem applied to a concretely tagged
sars paper. -/
theorem apply_tags_sars_excludes_covid_witness :
    (⟨some "c3", some "SARS structural study", "sars coronavirus structural study",
        none, false, true, true, true, ["sars", "coronavirus"]⟩ : Row) ∈
        apply_tags [rowSars] ∧
      (⟨some "c3", some "SARS structural study", "sars coronavirus structural study",
        none, false, true, true, true, ["sars", "coronavirus"]⟩ : Row).covid_related
        = false :=
  ⟨by decide,
    apply_tags_sars_excludes_covid [rowSars] _ (by decide) (by decide)⟩

/-! ## C5: the covid tag's reference-date condition -/

/-- C5 (counterexample): a document published exactly *on* the reference
date whose abstract matches a COVID pattern is not tagged — the code
compares `published > SARS_COV_2_DATE` strictly, refuting the claimed
"on or after". -/
theorem tag_covid_reference_date_counterexample :
    rowOnRefDate.published = some SARS_COV_2_DATE ∧
      matchCovidSearch rowOnRefDate.abstract = true ∧
      (tag_covid [rowOnRefDate]).map Row.covid_related = [false] := by
  decide

/-- C5 (amended): `since_covid` holds exactly when the publication date
is strictly *after* the reference date or is unknown, and
`covid_related` holds exactly when `since_covid` holds and the abstract
matches a COVID-era term pattern or the wuhan/hubei outbreak-location
pattern. -/
theorem tag_covid_characterization (data : List Row) (i : ℕ) (hi : i < data.length) :
    (sinceCovid (data.getD i default) = true ↔
      ((∃ p, (data.getD i default).published = some p ∧ SARS_COV_2_DATE < p) ∨
        (data.getD i default).published = none)) ∧
    (((tag_covid data).getD i default).covid_related = true ↔
      (sinceCovid (data.getD i default) = true ∧
        (matchCovidSearch (data.getD i default).abstract = true ∨
          matchWuhanHubei (data.getD i default).abstract = true))) := by
  constructor
  · unfold sinceCovid
    cases hp : (data.getD i default).published with
    | none => simp
    | some p => simp
  · have hget : (tag_covid data).getD i default = tagCovidRow (data.getD i default) := by
      unfold tag_covid
      rw [List.getD_eq_getElem _ _ (by simpa [tag_covid] using hi),
        List.getElem_map, List.getD_eq_getElem _ _ hi]
    rw [hget]
    show ((sinceCovid _ && matchCovidSearch _) ||
      (sinceCovid _ && matchWuhanHubei _)) = true ↔ _
    rw [Bool.or_eq_true, Bool.and_eq_true, Bool.and_eq_true]
    constructor
    · rintro (⟨hs, hm⟩ | ⟨hs, hm⟩)
      · exact ⟨hs, Or.inl hm⟩
      · exact ⟨hs, Or.inr hm⟩
    · rintro ⟨hs, hm | hm⟩
      · exact Or.inl ⟨hs, hm⟩
      · exact Or.inr ⟨hs, hm⟩

/-- C5 (witness): the characterization applied to a concrete one-row
corpus. -/
theorem tag_covid_characterization_witness :
    (sinceCovid rowA = true ↔
      ((∃ p, rowA.published = some p ∧ SARS_COV_2_DATE < p) ∨
        rowA.published = none)) ∧
    (((tag_covid [rowA]).getD 0 default).covid_related = true ↔
      (sinceCovid rowA = true ∧
        (matchCovidSearch rowA.abstract = true ∨
          matchWuhanHubei rowA.abstract = true))) :=
  tag_covid_characterization [rowA] 0 (by decide)

/-! ## C8: the minimum query length of the search caller -/

/-- C8 (counterexample): `_search_papers` returns without searching for
the 4-character query `"sars"` — the guard is `len(SearchTerms) < 5` —
although the engine itself would have returned a result, refuting
"queries of 4 or more characters are passed to the engine". -/
theorem min_query_length_counterexample :
    ("sars" : String).length = 4 ∧
      _search_papers [rowA] [5] "sars" none none none = none ∧
      search [rowA] [5] none false none none = some [⟨0, rowA, 5⟩] := by
  decide

/-- C8 (amended): `_search_papers` treats every query shorter than 5
characters as a no-op (no search, no results), and passes every query
of 5 or more characters to `search`. -/
theorem search_papers_min_query_length
    (rows : List Row) (doc_scores : List ℚ) (SearchTerms : String)
    (num_results : Option ℕ) (start_date end_date : Option Int) :
    (SearchTerms.length < 5 →
      _search_papers rows doc_scores SearchTerms num_results start_date end_date
        = none) ∧
    (5 ≤ SearchTerms.length →
      _search_papers rows doc_scores SearchTerms num_results start_date end_date
        = search rows doc_scores num_results false start_date end_date) := by
  constructor
  · intro h5
    unfold _search_papers
    rw [if_pos h5]
  · intro h5
    unfold _search_papers
    rw [if_neg (by omega)]

/-- C8 (witness): the guard theorem applied to a long and a short
concrete query. -/
theorem search_papers_min_query_length_witness :
    _search_papers [rowA] [5] "coronavirus" none none none =
        search [rowA] [5] none false none none ∧
      _search_papers [rowA] [5] "sars" (some 3) none none = none :=
  ⟨(search_papers_min_query_length [rowA] [5] "coronavirus" none none none).2
      (by decide),
    (search_papers_min_query_length [rowA] [5] "sars" (some 3) none none).1
      (by decide)⟩

/-- `search` zeta-reduced: the pipeline mapped over the `iloc` of the
reversed argsort. -/
theorem search_eq_pipeline (rows : List Row) (ds : List ℚ) (nr : Option ℕ)
    (c : Bool) (sd ed : Option Int) :
    search rows ds nr c sd ed =
      (iloc rows ds ((argsortAsc ds).reverse)).map (fun results =>
        searchResultsInit ((filterScore (filterEndDate ed (filterStartDate sd
          (filterCovid c results)))).take (nResultsOf nr))) := rfl

/-! ## C6: the all-empty-token corpus -/

/-- A search whose score array is parallel to the corpus and nowhere
above the threshold returns the empty result set. -/
theorem search_all_low_scores (rows : List Row) (ds : List ℚ)
    (nr : Option ℕ) (c : Bool) (sd ed : Option Int)
    (hlen : ds.length = rows.length)
    (hbnd : ∀ s ∈ ds, s ≤ _MINIMUM_SEARCH_SCORE) :
    search rows ds nr c sd ed = some [] := by
  have hbounds : ∀ i ∈ (argsortAsc ds).reverse, i < rows.length := by
    intro i hi
    rw [List.mem_reverse] at hi
    rw [← hlen]
    exact mem_argsortAsc.mp hi
  have hiloc := @iloc_isSome rows ds ((argsortAsc ds).reverse) hbounds
  rw [search_eq_pipeline, hiloc, Option.map_some']
  have hempty2 : filterScore (filterEndDate ed (filterStartDate sd
      (filterCovid c (((argsortAsc ds).reverse).map (fun i =>
        ⟨i, rows.getD i default, npRound1 (ds.getD i 0)⟩))))) = [] := by
    unfold filterScore
    rw [List.filter_eq_nil_iff]
    intro x hx
    have hxb : x ∈ ((argsortAsc ds).reverse).map (fun i =>
        (⟨i, rows.getD i default, npRound1 (ds.getD i 0)⟩ : SRow)) :=
      ((filterEndDate_sublist _ _).trans
        ((filterStartDate_sublist _ _).trans (filterCovid_sublist _ _))).subset hx
    obtain ⟨i, hi, rfl⟩ := List.mem_map.mp hxb
    have hilt : i < ds.length := by
      rw [List.mem_reverse] at hi
      exact mem_argsortAsc.mp hi
    have hmem : ds.getD i 0 ∈ ds := by
      rw [List.getD_eq_getElem ds 0 hilt]
      exact List.getElem_mem hilt
    have hle2 : ds.getD i 0 ≤ _MINIMUM_SEARCH_SCORE := hbnd _ hmem
    simp only [decide_eq_true_eq]
    exact not_lt.mpr (npRound1_le_two hle2)
  rw [hempty2, List.take_nil]
  rfl

/-- C6 (counterexample): the sentinel assignment `.loc[0]` is
label-based.  A derived one-document view that no longer carries the
row label 0 (as `tail(1)` leaves it, since `_make_copy` never resets
labels) whose only token sequence is empty gets the sentinel *appended*
under a fresh label 0: the index is then built over two documents
against one metadata row, and `search` fails indexing position 1.  The
zero-document corpus fails the same way.  Both refute "index
construction and search on such a corpus never fail". -/
theorem missing_label_zero_search_fails :
    _get_bm25Okapi [(1, rowEmptyTokens.index_tokens)] =
        some ⟨[[], ["no", "tokens"]]⟩ ∧
      search [rowEmptyTokens]
        (bm25Scores ⟨[[], ["no", "tokens"]]⟩ ["coronavirus"])
        none false none none = none ∧
      _get_bm25Okapi ([] : List (ℕ × List String)) =
        some ⟨[["no", "tokens"]]⟩ ∧
      search ([] : List Row) (bm25Scores ⟨[["no", "tokens"]]⟩ ["coronavirus"])
        none false none none = none := by
  decide

/-- C6 (amended): for every corpus that still carries the row label 0
and in which every document's token sequence is empty, `_get_bm25Okapi`
replaces the label-0 row by the two-token sentinel document, the index
builds (at least one document with at least one token) over exactly as
many documents as the corpus has rows, and every search succeeds with
an empty result set (no document can score above the threshold 2). -/
theorem all_empty_tokens_search_safe
    (rows : List Row) (labels : List ℕ)
    (hlen : labels.length = rows.length) (h0 : 0 ∈ labels)
    (hempty : ∀ r ∈ rows, r.index_tokens = [])
    (query : List String) (nr : Option ℕ) (c : Bool) (sd ed : Option Int) :
    ∃ idx, _get_bm25Okapi (labels.zip (rows.map Row.index_tokens)) = some idx ∧
      search rows (bm25Scores idx query) nr c sd ed = some [] := by
  have hziplen : (labels.zip (rows.map Row.index_tokens)).length = rows.length := by
    rw [List.length_zip, List.length_map, hlen, Nat.min_self]
  have hsnd : ∀ e ∈ labels.zip (rows.map Row.index_tokens),
      e.2 = ([] : List String) := by
    rintro ⟨a, b⟩ he
    obtain ⟨-, hb⟩ := List.of_mem_zip he
    obtain ⟨r, hr, rfl⟩ := List.mem_map.mp hb
    exact hempty r hr
  have hsum : (((labels.zip (rows.map Row.index_tokens)).map Prod.snd).map
      List.length).sum = 0 := by
    apply List.sum_eq_zero
    intro n hn
    obtain ⟨t, ht, rfl⟩ := List.mem_map.mp hn
    obtain ⟨e, he, rfl⟩ := List.mem_map.mp ht
    rw [hsnd e he]
    rfl
  have hfst : (labels.zip (rows.map Row.index_tokens)).map Prod.fst = labels :=
    List.map_fst_zip labels _ (by rw [List.length_map, hlen])
  have hmem0 : ∃ e ∈ labels.zip (rows.map Row.index_tokens), e.1 = 0 := by
    have h1 : 0 ∈ (labels.zip (rows.map Row.index_tokens)).map Prod.fst := by
      rw [hfst]
      exact h0
    obtain ⟨e, he, h2⟩ := List.mem_map.mp h1
    exact ⟨e, he, h2⟩
  have hany : (labels.zip (rows.map Row.index_tokens)).any
      (fun e => decide (e.1 = 0)) = true := by
    rw [List.any_eq_true]
    obtain ⟨e, he, h1⟩ := hmem0
    exact ⟨e, he, decide_eq_true h1⟩
  have hsub : substituteTokens (labels.zip (rows.map Row.index_tokens)) =
      (labels.zip (rows.map Row.index_tokens)).map
        (fun e => if e.1 = 0 then (0, ["no", "tokens"]) else e) := by
    unfold substituteTokens
    rw [if_neg (by omega), if_pos hany]
  set subT := (substituteTokens (labels.zip (rows.map Row.index_tokens))).map
    Prod.snd with hsubT
  have hsubTlen : subT.length = rows.length := by
    rw [hsubT, hsub, List.length_map, List.length_map, hziplen]
  have hsent : ["no", "tokens"] ∈ subT := by
    obtain ⟨e, he, h1⟩ := hmem0
    rw [hsubT, hsub, List.map_map]
    refine List.mem_map.mpr ⟨e, he, ?_⟩
    show ((if e.1 = 0 then ((0 : ℕ), ["no", "tokens"]) else e)).2 = _
    rw [if_pos h1]
  have hrowsne : rows.length ≠ 0 := by
    have h1 : labels ≠ [] := List.ne_nil_of_mem h0
    have h2 : 0 < labels.length := List.length_pos.mpr h1
    omega
  have hsumpos : ((subT.map List.length).sum ≠ 0) := by
    have h2le : (2 : ℕ) ≤ (subT.map List.length).sum :=
      List.single_le_sum (fun x _ => Nat.zero_le x) 2
        (List.mem_map.mpr ⟨["no", "tokens"], hsent, rfl⟩)
    omega
  have hbuild : _get_bm25Okapi (labels.zip (rows.map Row.index_tokens)) =
      some ⟨subT⟩ := by
    unfold _get_bm25Okapi bm25Build
    rw [← hsubT, if_neg]
    push_neg
    exact ⟨by rw [hsubTlen]; exact hrowsne, hsumpos⟩
  refine ⟨⟨subT⟩, hbuild, ?_⟩
  apply search_all_low_scores
  · show ((⟨subT⟩ : Bm25Index).corpus.map (fun doc =>
      ((doc.countP (fun t => query.contains t) : ℕ) : ℚ))).length = rows.length
    rw [List.length_map]
    exact hsubTlen
  · intro s hs
    have hs2 : s ∈ subT.map (fun doc =>
        ((doc.countP (fun t => query.contains t) : ℕ) : ℚ)) := hs
    obtain ⟨doc, hdoc, rfl⟩ := List.mem_map.mp hs2
    have hcases : doc = ["no", "tokens"] ∨ doc = [] := by
      rw [hsubT, hsub, List.map_map] at hdoc
      obtain ⟨e, he, rfl⟩ := List.mem_map.mp hdoc
      by_cases h1 : e.1 = 0
      · left
        show ((if e.1 = 0 then ((0 : ℕ), ["no", "tokens"]) else e)).2 = _
        rw [if_pos h1]
      · right
        show ((if e.1 = 0 then ((0 : ℕ), ["no", "tokens"]) else e)).2 = _
        rw [if_neg h1]
        exact hsnd e he
    rcases hcases with rfl | rfl
    · show ((List.countP (fun t => query.contains t) ["no", "tokens"] : ℕ) : ℚ)
        ≤ (2 : ℚ)
      exact_mod_cast List.countP_le_length _
    · show ((List.countP (fun t => query.contains t) ([] : List String) : ℕ) : ℚ)
        ≤ (2 : ℚ)
      simp

/-- C6 (witness): the amended theorem applied to a concrete one-document
corpus with no tokens that carries the default row label 0. -/
theorem all_empty_tokens_search_safe_witness :
    ([0] : List ℕ).length = ([rowEmptyTokens] : List Row).length ∧
      (0 : ℕ) ∈ ([0] : List ℕ) ∧
      ∃ idx, _get_bm25Okapi (([0] : List ℕ).zip
          ([rowEmptyTokens].map Row.index_tokens)) = some idx ∧
        search [rowEmptyTokens] (bm25Scores idx ["coronavirus"])
          none false none none = some [] :=
  ⟨by decide, by decide,
    all_empty_tokens_search_safe [rowEmptyTokens] [0] (by decide) (by decide)
      (by decide) ["coronavirus"] none false none none⟩

/-! ## Helper lemmas: positional reads and writes on backing arrays -/

theorem getD_append_left {α : Type} (l l2 : List α) (d : α) (i : ℕ)
    (h : i < l.length) : (l ++ l2).getD i d = l.getD i d := by
  rw [List.getD_eq_getElem?_getD, List.getD_eq_getElem?_getD,
    List.getElem?_append_left h]

theorem getD_append_length {α : Type} (l : List α) (x d : α) :
    (l ++ [x]).getD l.length d = x := by
  rw [List.getD_eq_getElem?_getD, List.getElem?_append_right (le_refl _)]
  simp

theorem set_append_length {α : Type} (l : List α) (x y : α) :
    (l ++ [x]).set l.length y = l ++ [y] := by
  induction l with
  | nil => rfl
  | cons a t ih =>
    show a :: ((t ++ [x]).set t.length y) = a :: (t ++ [y])
    rw [ih]

/-- Reading every position of a list back, in order, reproduces it. -/
theorem map_getD_range {α : Type} (l : List α) (d : α) :
    (List.range l.length).map (fun i => l.getD i d) = l := by
  apply List.ext_getElem
  · simp
  · intro i h1 h2
    simp only [List.getElem_map, List.getElem_range]
    exact List.getD_eq_getElem l d h2

/-- Reading the kept positions of a filtered position range reproduces
the filtered list. -/
theorem filter_positions {α : Type} (l : List α) (p : α → Bool) (d : α) :
    ((List.range l.length).filter (fun i => p (l.getD i d))).map
      (fun i => l.getD i d) = l.filter p := by
  induction l using List.reverseRecOn with
  | nil => rfl
  | append_singleton l a ih =>
    rw [List.length_append, List.length_singleton, List.range_succ,
      List.filter_append, List.map_append, List.filter_append]
    have hcong : ∀ i ∈ List.range l.length,
        (p ((l ++ [a]).getD i d) = true) = (p (l.getD i d) = true) := by
      intro i hi
      rw [getD_append_left _ _ _ _ (List.mem_range.mp hi)]
    rw [List.filter_congr (fun i hi => by
      rw [getD_append_left _ _ _ _ (List.mem_range.mp hi)])]
    congr 1
    · rw [List.map_congr_left (fun i hi => by
        exact getD_append_left _ _ _ _
          (List.mem_range.mp (List.mem_of_mem_filter hi)))]
      exact ih
    · show List.map _ (List.filter _ [l.length]) = List.filter p [a]
      rw [List.filter_singleton, List.filter_singleton, getD_append_length]
      cases hp : p a
      · rfl
      · rw [cond_true, cond_true, List.map_singleton, getD_append_length]

/-- Reading the first `k` positions reproduces `take k`. -/
theorem take_positions {α : Type} (l : List α) (k : ℕ) (d : α) :
    ((List.range l.length).take k).map (fun i => l.getD i d) = l.take k := by
  apply List.ext_getElem
  · simp
  · intro i h1 h2
    simp only [List.getElem_map, List.getElem_take, List.getElem_range]
    have hlt : i < l.length := by
      rw [List.length_take] at h2
      omega
    exact List.getD_eq_getElem l d hlt

/-- Reading the positions from `j` on reproduces `drop j`. -/
theorem drop_positions {α : Type} (l : List α) (j : ℕ) (d : α) :
    ((List.range l.length).drop j).map (fun i => l.getD i d) = l.drop j := by
  apply List.ext_getElem
  · simp
  · intro i h1 h2
    simp only [List.getElem_map, List.getElem_drop, List.getElem_range]
    have hlt : j + i < l.length := by
      rw [List.length_drop] at h2
      omega
    exact List.getD_eq_getElem l d hlt

/-! ## Helper lemmas: the copy-on-filter heap model -/

/-- Allocating a fresh backing array leaves every frame pointing into
the old store unchanged. -/
theorem frameRows_append_store (h : Heap) (f : PdFrame) (m : List Row)
    (haddr : f.addr < h.store.length) :
    frameRows ⟨h.store ++ [m]⟩ f = frameRows h f := by
  show f.sel.map (fun j => (((h.store ++ [m]).getD f.addr [])).getD j default)
    = f.sel.map (fun j => ((h.store.getD f.addr [])).getD j default)
  rw [getD_append_left _ _ _ _ haddr]

/-- The freshly copied frame denotes exactly the materialised rows. -/
theorem frameRows_child (h : Heap) (m : List Row) (n : ℕ) (hn : n = m.length) :
    frameRows ⟨h.store ++ [m]⟩ ⟨h.store.length, List.range n⟩ = m := by
  subst hn
  show (List.range m.length).map
    (fun j => (((h.store ++ [m]).getD h.store.length [])).getD j default) = m
  rw [getD_append_length]
  exact map_getD_range m default

/-- Writing through a frame whose backing array is the freshly appended
one never changes a frame pointing into the old store. -/
theorem frameRows_writeRow_fresh (h : Heap) (f : PdFrame) (m : List Row)
    (sel : List ℕ) (i : ℕ) (r : Row) (haddr : f.addr < h.store.length) :
    frameRows (writeRow ⟨h.store ++ [m]⟩ ⟨h.store.length, sel⟩ i r) f
      = frameRows h f := by
  show frameRows ⟨(h.store ++ [m]).set h.store.length
    (((h.store ++ [m]).getD h.store.length []).set (sel.getD i 0) r)⟩ f
    = frameRows h f
  rw [getD_append_length, set_append_length]
  exact frameRows_append_store h f _ haddr

/-- A sub-selection of in-range positions denotes the positional reads
of the parent's rows. -/
theorem frameRows_select (h : Heap) (f : PdFrame) (keep : List ℕ)
    (hk : ∀ i ∈ keep, i < (frameRows h f).length) :
    frameRows h (selectFrame f keep)
      = keep.map (fun i => (frameRows h f).getD i default) := by
  show (keep.map (fun i => f.sel.getD i 0)).map
      (fun j => (h.store.getD f.addr []).getD j default) = _
  rw [List.map_map]
  apply List.map_congr_left
  intro i hi
  have hflen : (frameRows h f).length = f.sel.length := by
    simp [frameRows]
  have hilen : i < f.sel.length := by
    rw [← hflen]
    exact hk i hi
  show (h.store.getD f.addr []).getD (f.sel.getD i 0) default
    = (frameRows h f).getD i default
  rw [List.getD_eq_getElem _ default (hk i hi)]
  simp only [frameRows, List.getElem_map]
  rw [List.getD_eq_getElem f.sel 0 hilen]

/-- Every position an order-preserving filter keeps is in range. -/
theorem opKeep_lt (rows : List Row) (op : FilterOp)
    (hop : op.orderPreserving = true) :
    ∀ i ∈ opKeep rows op, i < rows.length := by
  intro i hi
  cases op with
  | query p => exact List.mem_range.mp (List.mem_of_mem_filter hi)
  | after d inc => exact List.mem_range.mp (List.mem_of_mem_filter hi)
  | before d inc => exact List.mem_range.mp (List.mem_of_mem_filter hi)
  | containsStr pat => exact List.mem_range.mp (List.mem_of_mem_filter hi)
  | matchStr pat => exact List.mem_range.mp (List.mem_of_mem_filter hi)
  | head n => exact List.mem_range.mp (List.mem_of_mem_take hi)
  | tail n => exact List.mem_range.mp (List.mem_of_mem_drop hi)
  | sample pick => exact absurd hop (by simp [FilterOp.orderPreserving])

/-- Reading back the kept positions of an order-preserving filter gives
exactly the rows the spec describes. -/
theorem opKeep_map_getD (rows : List Row) (op : FilterOp)
    (hop : op.orderPreserving = true) :
    (opKeep rows op).map (fun i => rows.getD i default) = opRows rows op := by
  cases op with
  | query p => exact filter_positions rows p default
  | after d inc =>
    exact filter_positions rows (fun r =>
      match r.published with
      | some q => decide (d ≤ q)
      | none => inc) default
  | before d inc =>
    exact filter_positions rows (fun r =>
      match r.published with
      | some q => decide (q < d)
      | none => inc) default
  | containsStr pat =>
    exact filter_positions rows
      (fun r => containsSub pat.toList r.abstract.toList) default
  | matchStr pat =>
    exact filter_positions rows
      (fun r => pat.toList.isPrefixOf r.abstract.toList) default
  | head n => exact take_positions rows n default
  | tail n => exact drop_positions rows (rows.length - n) default
  | sample pick => exact absurd hop (by simp [FilterOp.orderPreserving])

/-- The rows an order-preserving filter describes form a sublist of the
parent's rows: a subset in the same relative order. -/
theorem opRows_sublist (rows : List Row) (op : FilterOp)
    (hop : op.orderPreserving = true) :
    (opRows rows op).Sublist rows := by
  cases op with
  | query p => exact List.filter_sublist rows
  | after d inc => exact List.filter_sublist rows
  | before d inc => exact List.filter_sublist rows
  | containsStr pat => exact List.filter_sublist rows
  | matchStr pat => exact List.filter_sublist rows
  | head n => exact List.take_sublist n rows
  | tail n => exact List.drop_sublist (rows.length - n) rows
  | sample pick => exact absurd hop (by simp [FilterOp.orderPreserving])

/-! ## C9: filters return independent, order-preserving copies -/

/-- C9 (counterexample): `sample` draws rows in random order — modelled
by the drawn-position oracle — so its result need not be a subset of the
parent "in the same relative order": drawing positions `[1, 0]` reverses
the two rows, refuting the claim for the `sample` member of the listed
operations. -/
theorem sample_order_counterexample :
    frameRows (applyOp heap0 frame0 (FilterOp.sample [1, 0])).1
        (applyOp heap0 frame0 (FilterOp.sample [1, 0])).2 = [rowB, rowA] ∧
      frameRows heap0 frame0 = [rowA, rowB] ∧
      ¬ ([rowB, rowA] : List Row).Sublist [rowA, rowB] := by
  decide

/-- C9 (amended): every filter operation on a corpus view (`query`,
`after`, `before`, `contains`, `match`, `head`, `tail`, `sample`)
materialises an independent copy — the filter leaves the parent's rows
unchanged, and mutating a row of the derived view leaves the parent's
rows unchanged; the deterministic operations (all but `sample`) return
exactly the matching subset of the parent's rows in the same relative
order, while `sample` returns the rows at its randomly drawn positions
in draw order, a subset but not order-preserving. -/
theorem filter_ops_copy_independent (h : Heap) (f : PdFrame) (op : FilterOp)
    (haddr : f.addr < h.store.length) :
    frameRows (applyOp h f op).1 f = frameRows h f ∧
    (∀ i r, frameRows (writeRow (applyOp h f op).1 (applyOp h f op).2 i r) f
      = frameRows h f) ∧
    (op.orderPreserving = true →
      frameRows (applyOp h f op).1 (applyOp h f op).2
          = opRows (frameRows h f) op ∧
        (opRows (frameRows h f) op).Sublist (frameRows h f)) ∧
    (∀ pick, op = FilterOp.sample pick →
      (∀ j ∈ pick, j < (frameRows h f).length) →
      frameRows (applyOp h f op).1 (applyOp h f op).2
        = opRows (frameRows h f) op) := by
  have happly1 : (applyOp h f op).1 =
      ⟨h.store ++ [frameRows h (selectFrame f (opKeep (frameRows h f) op))]⟩ := rfl
  have happly2 : (applyOp h f op).2 =
      ⟨h.store.length,
        List.range ((opKeep (frameRows h f) op).map (fun i => f.sel.getD i 0)).length⟩ :=
    rfl
  have hmatlen :
      ((opKeep (frameRows h f) op).map (fun i => f.sel.getD i 0)).length =
        (frameRows h (selectFrame f (opKeep (frameRows h f) op))).length := by
    simp [frameRows, selectFrame]
  have hchild : frameRows (applyOp h f op).1 (applyOp h f op).2 =
      frameRows h (selectFrame f (opKeep (frameRows h f) op)) := by
    rw [happly1, happly2]
    exact frameRows_child h _ _ hmatlen
  refine ⟨?_, ?_, ?_, ?_⟩
  · rw [happly1]
    exact frameRows_append_store h f _ haddr
  · intro i r
    rw [happly1, happly2]
    exact frameRows_writeRow_fresh h f _ _ i r haddr
  · intro hop
    refine ⟨?_, opRows_sublist _ op hop⟩
    rw [hchild, frameRows_select h f _ (opKeep_lt _ op hop)]
    exact opKeep_map_getD _ op hop
  · intro pick hpick hvalid
    subst hpick
    rw [hchild, frameRows_select h f
      (opKeep (frameRows h f) (FilterOp.sample pick)) hvalid]
    rfl

/-- C9 (witness): the copy-independence theorem applied to a concrete
`head 1` filter on a two-row corpus view. -/
theorem filter_ops_copy_independent_witness :
    frameRows (applyOp heap0 frame0 (FilterOp.head 1)).1 frame0
        = frameRows heap0 frame0 ∧
      (∀ i r, frameRows (writeRow (applyOp heap0 frame0 (FilterOp.head 1)).1
          (applyOp heap0 frame0 (FilterOp.head 1)).2 i r) frame0
        = frameRows heap0 frame0) ∧
      ((FilterOp.head 1).orderPreserving = true →
        frameRows (applyOp heap0 frame0 (FilterOp.head 1)).1
            (applyOp heap0 frame0 (FilterOp.head 1)).2
            = opRows (frameRows heap0 frame0) (FilterOp.head 1) ∧
          (opRows (frameRows heap0 frame0) (FilterOp.head 1)).Sublist
            (frameRows heap0 frame0)) ∧
      (∀ pick, FilterOp.head 1 = FilterOp.sample pick →
        (∀ j ∈ pick, j < (frameRows heap0 frame0).length) →
        frameRows (applyOp heap0 frame0 (FilterOp.head 1)).1
            (applyOp heap0 frame0 (FilterOp.head 1)).2
          = opRows (frameRows heap0 frame0) (FilterOp.head 1)) :=
  filter_ops_copy_independent heap0 frame0 (FilterOp.head 1) (by decide)
